import Mathlib

/-!
Verification development for the wafer-CSV failure extractor
(src/extract_failing_chips.py).

The script is a single-pass tabular transformation built on pandas.  We give
a shallow embedding of its data model and operations:

* a CSV table, as it stands after pandas read_csv with header=None and the
  configured skiprows, is a list of rows of cells; read_csv always yields a
  rectangular frame, so theorems that need it take a Rect hypothesis;
* a cell is either missing (NaN), textual, or numeric.  A cell whose raw
  text parses as a number under pd.to_numeric is represented directly as a
  numeric cell; machine floats are modelled as rationals;
* exceptions (the explicit ValueError raise, the pandas KeyError on a
  missing column label, and the pandas TypeError when a duplicated column
  label makes a getitem return a 2-D object) become an Except error type;
* file writes and prints of compare_coverage become an explicit effect list;
* a raw-read layer at the end models read_csv dtype inference over a sample
  of rows, capturing how the nrows-2 re-read of get_test_items can render a
  header token differently from the full read of parse_wafer_csv.
-/

namespace ExtractFailingChips

/-- One cell of the table produced by pandas read_csv.  A numeric-looking
cell (the only kind pd.to_numeric with errors="coerce" keeps) is the num
constructor; other text is str; missing values (NaN) are empty. -/
inductive Cell where
  | empty : Cell
  | str : String → Cell
  | num : ℚ → Cell
  deriving DecidableEq, Repr

/-- pandas isna on one cell. -/
def Cell.isEmpty : Cell → Bool
  | Cell.empty => true
  | _ => false

/-- pd.to_numeric(x, errors="coerce") on one cell: numeric content is kept,
anything else becomes NaN (here: none). -/
def Cell.toNum : Cell → Option ℚ
  | Cell.num q => some q
  | _ => none

/-- astype(str) on one cell; pandas renders NaN as the string nan.  A
numeric cell gets one canonical rendering here; in pandas that rendering
depends on the column dtype the read inferred, which is what lets the two
reads of the program disagree — that mechanism is modelled by the raw-read
layer at the end of this file (claim C9), where a cell only becomes num
when its column converts. -/
def Cell.toStr : Cell → String
  | Cell.empty => "nan"
  | Cell.str s => s
  | Cell.num q => toString q

/-- The table: rows of cells, in file order, after skiprows. -/
abbrev Table := List (List Cell)

/-- Number of columns of the frame (rows are conceptually NaN-padded to this
width, as read_csv pads short rows). -/
def ncols (t : Table) : Nat := (t.map List.length).foldr max 0

/-- Column j is entirely empty (pandas dropna(axis=1, how="all") predicate). -/
def colAllEmpty (t : Table) (j : Nat) : Bool :=
  t.all fun r => (r.getD j Cell.empty).isEmpty

/-- Indices of the columns kept by dropna(axis=1, how="all"). -/
def keptCols (t : Table) : List Nat :=
  (List.range (ncols t)).filter fun j => !colAllEmpty t j

/-- df.dropna(axis=1, how="all"): drop every entirely-empty column. -/
def dropEmptyCols (t : Table) : Table :=
  t.map fun r => (keptCols t).map fun j => r.getD j Cell.empty

/-- A row is entirely empty (pandas dropna(how="all") predicate). -/
def rowAllEmpty (r : List Cell) : Bool := r.all Cell.isEmpty

/-- df.dropna(how="all"): drop every entirely-empty row. -/
def dropEmptyRows (t : Table) : Table := t.filter fun r => !rowAllEmpty r

/-- Lines 50-51 of the source: dropna(axis=1, how="all") followed by
dropna(how="all") and reset_index. -/
def prepTable (t : Table) : Table := dropEmptyRows (dropEmptyCols t)

/-- The base name built for one group/item pair (python: the f-string
joining group and item with a dash). -/
def baseOf (g it : String) : String := g ++ "-" ++ it

/-- The suffixing of _unique_test_names: the underscore suffix carries the
occurrence count when it exceeds one, else the base stands alone. -/
def suffixName (base : String) (c : Nat) : String :=
  if c > 1 then base ++ "_" ++ toString c else base

/-- The loop body of _unique_test_names: walk the group/item pairs carrying
the counts dict (modelled as a function String to Nat, initially zero). -/
def uniqueNamesGo : List (String × String) → (String → Nat) → List String
  | [], _ => []
  | (g, it) :: rest, counts =>
    let base := baseOf g it
    let c := counts base + 1
    suffixName base c :: uniqueNamesGo rest fun k => if k = base then c else counts k

/-- _unique_test_names from the source: zip groups with items and assign a
numeric suffix to every repetition of a base name. -/
def unique_test_names (groups items : List String) : List String :=
  uniqueNamesGo (groups.zip items) fun _ => 0

/-- get_test_items from the source, given an already-classified frame:
take the two header rows (no empty-row or empty-column dropping) and
disambiguate.  The program obtains that frame from a separate
read_csv(nrows=2) call whose dtype inference sees only these two rows;
that re-read is modelled by readHead2 in the raw-read layer below, and
get_test_items_file composes the two — the identification of the two
reads is not built in here. -/
def get_test_items (t : Table) : List String :=
  unique_test_names (((t.getD 0 []).drop 8).map Cell.toStr)
    (((t.getD 1 []).drop 8).map Cell.toStr)

/-- The exceptions parse_wafer_csv can raise: the explicit ValueError of the
too-few-rows check (the FormatError of the spec), the pandas KeyError when a
looked-up column label is absent, and the pandas TypeError when a duplicated
label makes the getitem return a 2-D object that pd.to_numeric rejects. -/
inductive ParseError where
  | formatError (msg : String)
  | keyError (col : String)
  | typeError (col : String)
  deriving DecidableEq, Repr

/-- One row of the failures frame returned by parse_wafer_csv. -/
structure FailureRecord where
  XAdr : Option ℚ
  YAdr : Option ℚ
  test_item : String
  unit : String
  value : ℚ
  limit_high : Option ℚ
  limit_low : Option ℚ
  deriving DecidableEq, Repr

/-- The result frame of parse_wafer_csv: its column schema plus its rows. -/
structure FailFrame where
  cols : List String
  recs : List FailureRecord
  deriving DecidableEq, Repr

/-- The intermediate values parse_wafer_csv computes after the row-count
check (lines 55-72 of the source): group labels, raw item labels, numeric
limits, disambiguated item names, the header label list (8 raw cells then
the item names), units, and the data rows. -/
structure ParseCtx where
  items : List String
  uppers : List (Option ℚ)
  lowers : List (Option ℚ)
  headers : List Cell
  units : List String
  dataRows : Table

/-- Build the ParseCtx from the prepared table, as lines 55-72.  The
column truncation of line 69 is omitted: the header list always has exactly
the frame's column count (8 leading labels plus one name per remaining
column), so truncating the data rows to that many columns changes
nothing. -/
def mkParseCtx (t2 : Table) : ParseCtx :=
  let groups := ((t2.getD 0 []).drop 8).map Cell.toStr
  let itemsRaw := ((t2.getD 1 []).drop 8).map Cell.toStr
  let items := unique_test_names groups itemsRaw
  { items := items
    uppers := ((t2.getD 2 []).drop 8).map Cell.toNum
    lowers := ((t2.getD 3 []).drop 8).map Cell.toNum
    headers := (t2.getD 4 []).take 8 ++ items.map Cell.str
    units := ((t2.getD 4 []).drop 8).map Cell.toStr
    dataRows := (t2.drop 5).filter fun r => !rowAllEmpty r }

/-- How many header labels equal the looked-up column name. -/
def countCell (headers : List Cell) (col : String) : Nat :=
  headers.count (Cell.str col)

/-- One step of the coercion loop (line 74-75): getitem on a missing label
raises KeyError; on a duplicated label it returns a DataFrame and
pd.to_numeric raises TypeError; otherwise the column is coerced in place. -/
def checkCol (headers : List Cell) (col : String) : Except ParseError Unit :=
  match countCell headers col with
  | 0 => Except.error (ParseError.keyError col)
  | 1 => Except.ok ()
  | _ => Except.error (ParseError.typeError col)

/-- The coercion loop over XAdr, YAdr and every test item, stopping at the
first column whose getitem raises. -/
def checkCols (headers : List Cell) : List String → Except ParseError Unit
  | [] => Except.ok ()
  | c :: rest =>
    match checkCol headers c with
    | Except.error e => Except.error e
    | Except.ok _ => checkCols headers rest

/-- series gt comparison against a possibly-NaN limit: NaN compares False. -/
def gtLim (v : ℚ) : Option ℚ → Bool
  | some u => decide (u < v)
  | none => false

/-- series lt comparison against a possibly-NaN limit: NaN compares False. -/
def ltLim (v : ℚ) : Option ℚ → Bool
  | some l => decide (v < l)
  | none => false

/-- The failure mask of line 81 for one already-coerced reading. -/
def failsAt (v : ℚ) (upper lower : Option ℚ) : Bool :=
  gtLim v upper || ltLim v lower

/-- Position of a column label in the header list (unique after checkCols
succeeded, so the first match is the column). -/
def colIdx (headers : List Cell) (col : String) : Nat :=
  headers.indexOf (Cell.str col)

/-- Cell of a row at a column position; the frame is NaN-padded. -/
def cellAt (r : List Cell) (j : Nat) : Cell := r.getD j Cell.empty

/-- Lines 81-104 for one test item and one data row: coerce the reading,
apply the mask, and build the selected record.  A non-numeric reading is
never a failure (NaN compares False in the mask). -/
def rowFailure (c : ParseCtx) (idx : Nat) (item : String) (r : List Cell) :
    Option FailureRecord :=
  match (cellAt r (colIdx c.headers item)).toNum with
  | some v =>
    if failsAt v (c.uppers.getD idx none) (c.lowers.getD idx none) then
      some { XAdr := (cellAt r (colIdx c.headers "XAdr")).toNum
             YAdr := (cellAt r (colIdx c.headers "YAdr")).toNum
             test_item := item
             unit := c.units.getD idx ""
             value := v
             limit_high := c.uppers.getD idx none
             limit_low := c.lowers.getD idx none }
    else none
  | none => none

/-- The enumerate loop of line 78: per test item, in column order, append
the failing rows in data order. -/
def extractGo (c : ParseCtx) : Nat → List String → List FailureRecord
  | _, [] => []
  | idx, item :: rest =>
    c.dataRows.filterMap (rowFailure c idx item) ++ extractGo c (idx + 1) rest

/-- All failures of the file, concatenated in test-item column order. -/
def extractFailures (c : ParseCtx) : List FailureRecord :=
  extractGo c 0 c.items

/-- The column list of the per-item selection at lines 93-104. -/
def selectedCols : List String :=
  ["XAdr", "YAdr", "test_item", "unit", "value", "limit_high", "limit_low"]

/-- The column list of the empty fallback frame at lines 108-120. -/
def emptyFrameCols : List String :=
  ["XAdr", "YAdr", "test_item", "unit", "value", "limit_high", "limit_low"]

/-- parse_wafer_csv from the source, on the post-skiprows table: drop empty
columns then empty rows, require at least 6 rows (else the ValueError),
resolve headers, run the coercion loop (KeyError/TypeError), extract the
failures, and return the frame (the concat branch or the empty fallback). -/
def parse_wafer_csv (t : Table) : Except ParseError FailFrame :=
  if (prepTable t).length < 6 then
    Except.error
      (ParseError.formatError "CSV format unexpected; not enough rows after metadata")
  else
    match
      checkCols (mkParseCtx (prepTable t)).headers
        (["XAdr", "YAdr"] ++ (mkParseCtx (prepTable t)).items) with
    | Except.error e => Except.error e
    | Except.ok _ =>
      if (extractFailures (mkParseCtx (prepTable t))).isEmpty then
        Except.ok { cols := emptyFrameCols, recs := [] }
      else
        Except.ok { cols := selectedCols
                    recs := extractFailures (mkParseCtx (prepTable t)) }

/-- The join key of pd.merge on XAdr, YAdr, test_item.  pandas matches NaN
join keys with each other, so the Option coordinates compare plainly. -/
structure MKey where
  XAdr : Option ℚ
  YAdr : Option ℚ
  test_item : String
  deriving DecidableEq, Repr

/-- Join key of a failure record. -/
def keyOf (r : FailureRecord) : MKey := ⟨r.XAdr, r.YAdr, r.test_item⟩

/-- One row of the outer-join frame: the key columns plus both files'
payload columns (suffixes _a and _b); a side absent from the join carries
NaN, here none.  For the limit columns the model folds the NaN of a missing
side and the NaN of an absent limit into one none. -/
structure MergedRow where
  XAdr : Option ℚ
  YAdr : Option ℚ
  test_item : String
  unit_a : Option String
  value_a : Option ℚ
  limit_high_a : Option ℚ
  limit_low_a : Option ℚ
  unit_b : Option String
  value_b : Option ℚ
  limit_high_b : Option ℚ
  limit_low_b : Option ℚ
  deriving DecidableEq, Repr

/-- Joined row when both sides match on the key. -/
def mkBoth (ra rb : FailureRecord) : MergedRow :=
  { XAdr := ra.XAdr, YAdr := ra.YAdr, test_item := ra.test_item
    unit_a := some ra.unit, value_a := some ra.value
    limit_high_a := ra.limit_high, limit_low_a := ra.limit_low
    unit_b := some rb.unit, value_b := some rb.value
    limit_high_b := rb.limit_high, limit_low_b := rb.limit_low }

/-- Joined row for an A record with no key match in B. -/
def mkLeftOnly (ra : FailureRecord) : MergedRow :=
  { XAdr := ra.XAdr, YAdr := ra.YAdr, test_item := ra.test_item
    unit_a := some ra.unit, value_a := some ra.value
    limit_high_a := ra.limit_high, limit_low_a := ra.limit_low
    unit_b := none, value_b := none
    limit_high_b := none, limit_low_b := none }

/-- Joined row for a B record with no key match in A. -/
def mkRightOnly (rb : FailureRecord) : MergedRow :=
  { XAdr := rb.XAdr, YAdr := rb.YAdr, test_item := rb.test_item
    unit_a := none, value_a := none
    limit_high_a := none, limit_low_a := none
    unit_b := some rb.unit, value_b := some rb.value
    limit_high_b := rb.limit_high, limit_low_b := rb.limit_low }

/-- pd.merge(df_a, df_b, on=the key, how="outer"): every A row paired with
each of its B key matches (or alone when unmatched), then the unmatched B
rows.  The claims under verification do not depend on the row order of the
join, so the lexicographic key ordering pandas applies to outer joins is
not reproduced. -/
def mergeOuter (a b : List FailureRecord) : List MergedRow :=
  (a.flatMap fun ra =>
    let ms := b.filter fun rb => decide (keyOf rb = keyOf ra)
    if ms.isEmpty then [mkLeftOnly ra] else ms.map (mkBoth ra))
  ++ (b.filter fun rb => !a.any fun ra => decide (keyOf ra = keyOf rb)).map
      mkRightOnly

/-- The status row function of lines 143-148. -/
def statusRow (r : MergedRow) : String :=
  if r.value_a.isSome && r.value_b.isSome then "both_fail"
  else if r.value_a.isSome then "fail_in_a_only"
  else "fail_in_b_only"

/-- Round-half-to-even at integer precision, the rounding of numpy and
hence of Series.round. -/
def roundHalfEven (q : ℚ) : ℤ :=
  if q - ⌊q⌋ < 1 / 2 then ⌊q⌋
  else if 1 / 2 < q - ⌊q⌋ then ⌊q⌋ + 1
  else if 2 ∣ ⌊q⌋ then ⌊q⌋ else ⌊q⌋ + 1

/-- Series.round(2): round half to even at two decimals. -/
def round2 (q : ℚ) : ℚ := (roundHalfEven (q * 100) : ℚ) / 100

/-- One row of the summary frame of summarize_by_test_item. -/
structure SummaryRow where
  test_item : String
  fails_a : Nat
  fails_b : Nat
  both_fail : Nat
  coverage_a_in_b : ℚ
  coverage_b_in_a : ℚ
  a_fully_covered : Bool
  b_fully_covered : Bool
  present_in_a : Bool
  present_in_b : Bool
  deriving DecidableEq, Repr

/-- both_fail over fails, times 100, rounded; fails of zero is replaced by
NA, so the division yields NA and fillna(0) makes the coverage 0. -/
def covPct (bothCnt fails : Nat) : ℚ :=
  if fails = 0 then 0 else round2 ((bothCnt : ℚ) / (fails : ℚ) * 100)

/-- Insertion into a string list sorted by the default order (groupby sorts
its keys). -/
def insertSorted (s : String) : List String → List String
  | [] => [s]
  | x :: xs => if s ≤ x then s :: x :: xs else x :: insertSorted s xs

/-- Sort a string list, modelling the sorted group keys of groupby. -/
def sortStrings (l : List String) : List String :=
  l.foldr insertSorted []

/-- The aggregation row of lines 172-199 for one group key: the group is
every joined row with that test_item; fails are counts of non-NaN values,
both_fail counts the status matches, coverages divide and round, the
fully-covered flags compare with 100, and the present flags test the
declared name sets. -/
def mkSummaryRow (rows : List (MergedRow × String)) (tA tB : List String)
    (k : String) : SummaryRow :=
  let grp := rows.filter fun p => decide (p.1.test_item = k)
  let fa := grp.countP fun p => p.1.value_a.isSome
  let fb := grp.countP fun p => p.1.value_b.isSome
  let bf := grp.countP fun p => decide (p.2 = "both_fail")
  { test_item := k
    fails_a := fa
    fails_b := fb
    both_fail := bf
    coverage_a_in_b := covPct bf fa
    coverage_b_in_a := covPct bf fb
    a_fully_covered := decide (0 < fa) && decide (covPct bf fa = 100)
    b_fully_covered := decide (0 < fb) && decide (covPct bf fb = 100)
    present_in_a := decide (k ∈ tA)
    present_in_b := decide (k ∈ tB) }

/-- summarize_by_test_item from the source, on the joined rows paired with
their status column: one summary row per distinct test_item, in sorted key
order as groupby produces. -/
def summarize_by_test_item (rows : List (MergedRow × String))
    (tA tB : List String) : List SummaryRow :=
  (sortStrings ((rows.map fun p => p.1.test_item).dedup)).map
    (mkSummaryRow rows tA tB)

/-- The observable side effects of compare_coverage: console lines and
written report files. -/
inductive Effect where
  | printMsg (s : String)
  | writeFile (name : String)
  deriving DecidableEq, Repr

/-- What compare_coverage computes after parsing both files: either the
short-circuit when both failure frames are empty, or the joined frame (with
its status column), the overall coverage percentage, and the summary. -/
inductive CompareRun where
  | noFailures
  | report (merged : List (MergedRow × String)) (coverage : ℚ)
      (summary : List SummaryRow)
  deriving DecidableEq, Repr

/-- The joined rows of a run (empty in the short-circuit case). -/
def CompareRun.merged : CompareRun → List (MergedRow × String)
  | CompareRun.noFailures => []
  | CompareRun.report m _ _ => m

/-- The summary rows of a run (empty in the short-circuit case). -/
def CompareRun.summary : CompareRun → List SummaryRow
  | CompareRun.noFailures => []
  | CompareRun.report _ _ s => s

/-- The overall coverage of a run (0 in the short-circuit case, where the
script prints no percentage). -/
def CompareRun.coverage : CompareRun → ℚ
  | CompareRun.noFailures => 0
  | CompareRun.report _ c _ => c

/-- The prints and file writes of compare_coverage, in program order.  The
text of the coverage line interpolates the file names and the percentage;
it is abbreviated here since no claim concerns it. -/
def CompareRun.effects : CompareRun → List Effect
  | CompareRun.noFailures =>
    [Effect.printMsg "Both files have no failures to compare"]
  | CompareRun.report _ _ _ =>
    [Effect.writeFile "coverage.csv",
     Effect.printMsg "Coverage percentage",
     Effect.printMsg "Detailed coverage written to coverage.csv",
     Effect.writeFile "summary.csv",
     Effect.printMsg "Summary written to summary.csv"]

/-- Lines 131-164 of compare_coverage, after the two parses and the two
get_test_items calls: the empty-empty short-circuit, else the outer join,
the status column, the overall coverage (0 when A has no failures), and the
summary. -/
def compareCore (dfA dfB : List FailureRecord) (tA tB : List String) :
    CompareRun :=
  if dfA.isEmpty && dfB.isEmpty then CompareRun.noFailures
  else
    let merged := (mergeOuter dfA dfB).map fun r => (r, statusRow r)
    let coverage :=
      if dfA.length = 0 then 0
      else ((merged.countP fun p => decide (p.2 = "both_fail") : ℕ) : ℚ) /
        (dfA.length : ℚ) * 100
    CompareRun.report merged coverage
      (summarize_by_test_item merged tA tB)

/-- compare_coverage from the source: parse both files (exceptions
propagate), read both files' declared test-item names, then run the
comparison logic.  Stated over classified frames; the separate nrows-2
re-read behind get_test_items is treated in the raw-read layer below. -/
def compare_coverage (ta tb : Table) : Except ParseError CompareRun := do
  let fa ← parse_wafer_csv ta
  let fb ← parse_wafer_csv tb
  let tA := get_test_items ta
  let tB := get_test_items tb
  return compareCore fa.recs fb.recs tA tB

/-- Decidable equality of Except results, used to evaluate the parser on
concrete tables. -/
instance exceptDecEq {ε α : Type} [DecidableEq ε] [DecidableEq α] :
    DecidableEq (Except ε α)
  | Except.ok a, Except.ok b =>
    if h : a = b then isTrue (by rw [h])
    else isFalse (by intro hh; cases hh; exact h rfl)
  | Except.ok _, Except.error _ => isFalse (by intro hh; cases hh)
  | Except.error _, Except.ok _ => isFalse (by intro hh; cases hh)
  | Except.error e, Except.error f =>
    if h : e = f then isTrue (by rw [h])
    else isFalse (by intro hh; cases hh; exact h rfl)

/-! Concrete tables and records used by witnesses and counterexamples. -/

/-- A well-formed 7-row, 9-column table: one test column (group G1, item V,
limits 1 and 3, unit mV) and two dice, of which the one at (2, 2) reads 4
and exceeds the upper limit. -/
def exTable : Table :=
  [[Cell.str "a0", Cell.str "a1", Cell.str "a2", Cell.str "a3", Cell.str "a4",
    Cell.str "a5", Cell.str "a6", Cell.str "a7", Cell.str "G1"],
   [Cell.str "b0", Cell.str "b1", Cell.str "b2", Cell.str "b3", Cell.str "b4",
    Cell.str "b5", Cell.str "b6", Cell.str "b7", Cell.str "V"],
   [Cell.str "c0", Cell.str "c1", Cell.str "c2", Cell.str "c3", Cell.str "c4",
    Cell.str "c5", Cell.str "c6", Cell.str "c7", Cell.num 3],
   [Cell.str "d0", Cell.str "d1", Cell.str "d2", Cell.str "d3", Cell.str "d4",
    Cell.str "d5", Cell.str "d6", Cell.str "d7", Cell.num 1],
   [Cell.str "XAdr", Cell.str "YAdr", Cell.str "h2", Cell.str "h3",
    Cell.str "h4", Cell.str "h5", Cell.str "h6", Cell.str "h7",
    Cell.str "mV"],
   [Cell.num 1, Cell.num 1, Cell.num 0, Cell.num 0, Cell.num 0, Cell.num 0,
    Cell.num 0, Cell.num 0, Cell.num 2],
   [Cell.num 2, Cell.num 2, Cell.num 0, Cell.num 0, Cell.num 0, Cell.num 0,
    Cell.num 0, Cell.num 0, Cell.num 4]]

/-- The failure frame parse_wafer_csv returns on exTable. -/
def exFrame : FailFrame :=
  { cols := selectedCols
    recs := [{ XAdr := some 2, YAdr := some 2, test_item := "G1-V"
               unit := "mV", value := 4, limit_high := some 3
               limit_low := some 1 }] }

/-- exTable with the XAdr header cell replaced, so the fixed leading
columns cannot be found. -/
def exTableNoXAdr : Table :=
  [[Cell.str "a0", Cell.str "a1", Cell.str "a2", Cell.str "a3", Cell.str "a4",
    Cell.str "a5", Cell.str "a6", Cell.str "a7", Cell.str "G1"],
   [Cell.str "b0", Cell.str "b1", Cell.str "b2", Cell.str "b3", Cell.str "b4",
    Cell.str "b5", Cell.str "b6", Cell.str "b7", Cell.str "V"],
   [Cell.str "c0", Cell.str "c1", Cell.str "c2", Cell.str "c3", Cell.str "c4",
    Cell.str "c5", Cell.str "c6", Cell.str "c7", Cell.num 3],
   [Cell.str "d0", Cell.str "d1", Cell.str "d2", Cell.str "d3", Cell.str "d4",
    Cell.str "d5", Cell.str "d6", Cell.str "d7", Cell.num 1],
   [Cell.str "Q0", Cell.str "YAdr", Cell.str "h2", Cell.str "h3",
    Cell.str "h4", Cell.str "h5", Cell.str "h6", Cell.str "h7",
    Cell.str "mV"],
   [Cell.num 1, Cell.num 1, Cell.num 0, Cell.num 0, Cell.num 0, Cell.num 0,
    Cell.num 0, Cell.num 0, Cell.num 2],
   [Cell.num 2, Cell.num 2, Cell.num 0, Cell.num 0, Cell.num 0, Cell.num 0,
    Cell.num 0, Cell.num 0, Cell.num 4]]

/-- A single-row table, far below the 6-row minimum. -/
def exTableShort : Table := [[Cell.str "a0"]]

/-- A concrete failure record at die (1, 1) on item T. -/
def exRec : FailureRecord :=
  { XAdr := some 1, YAdr := some 1, test_item := "T", unit := "mV"
    value := 4, limit_high := some 3, limit_low := some 1 }

/-- A second record with the same join key as exRec but another value. -/
def exRecDupKey : FailureRecord :=
  { XAdr := some 1, YAdr := some 1, test_item := "T", unit := "mV"
    value := 5, limit_high := some 3, limit_low := some 1 }

/-! Helper lemmas. -/

/-- True exactly on the script's FormatError outcome (the explicit
ValueError raise); false on success and on the pandas exceptions. -/
def errIsFormat : Except ParseError FailFrame → Bool
  | Except.error (ParseError.formatError _) => true
  | _ => false

/-- The single coercion step only raises the pandas lookup errors. -/
lemma checkCol_error {headers : List Cell} {c : String} {e : ParseError}
    (h : checkCol headers c = Except.error e) :
    e = ParseError.keyError c ∨ e = ParseError.typeError c := by
  unfold checkCol at h
  split at h
  · exact Or.inl (Except.error.inj h).symm
  · exact absurd h (by simp)
  · exact Or.inr (Except.error.inj h).symm

/-- The coercion loop only raises the pandas lookup errors, never the
FormatError of the row-count check. -/
lemma checkCols_error {headers : List Cell} {cols : List String}
    {e : ParseError} (h : checkCols headers cols = Except.error e) :
    ∀ msg, e ≠ ParseError.formatError msg := by
  induction cols with
  | nil => exact absurd h (by simp [checkCols])
  | cons c rest ih =>
    rw [checkCols] at h
    split at h
    · rename_i e' he
      cases Except.error.inj h
      rcases checkCol_error he with h1 | h1 <;> subst h1 <;>
        intro msg hcontra <;> cases hcontra
    · exact ih h

/-- Successful parses fix the record list and the column schema: the
records are the extraction loop's output (also when it is empty) and the
schema is the selected column list of both return branches. -/
lemma parse_ok_elim {t : Table} {f : FailFrame}
    (h : parse_wafer_csv t = Except.ok f) :
    f.recs = extractFailures (mkParseCtx (prepTable t)) ∧
    f.cols = selectedCols := by
  unfold parse_wafer_csv at h
  split at h
  · exact absurd h (by simp)
  · split at h
    · exact absurd h (by simp)
    · split at h
      · rename_i hemp
        cases Except.ok.inj h
        exact ⟨(List.isEmpty_iff.mp hemp).symm, rfl⟩
      · cases Except.ok.inj h
        exact ⟨rfl, rfl⟩

/-! Claim theorems. -/

/-- Claim C3 (code bug): the disambiguator is documented to make every
column name distinct, but when a raw group-item base string coincides with
an already-suffixed name the output repeats a name.  At groups G, G, G and
items X, X, X_2 the third column keeps its base G-X_2, which the second
column was already renamed to, so the returned list has a duplicate. -/
theorem claim_C3_bug :
    unique_test_names ["G", "G", "G"] ["X", "X", "X_2"] =
      ["G-X", "G-X_2", "G-X_2"] ∧
    ¬ (unique_test_names ["G", "G", "G"] ["X", "X", "X_2"]).Nodup := by
  decide

/-- Claim C6: the parser fails with the FormatError (the ValueError of the
too-few-rows check) exactly when, after dropping entirely-empty columns and
entirely-empty rows, fewer than 6 rows remain; with 6 or more rows that
check passes and any failure is one of the pandas lookup errors instead. -/
theorem claim_C6 (t : Table) :
    errIsFormat (parse_wafer_csv t) = true ↔ (prepTable t).length < 6 := by
  unfold parse_wafer_csv
  split
  · rename_i hlt
    simpa [errIsFormat] using hlt
  · rename_i hge
    constructor
    · intro hfmt
      exfalso
      revert hfmt
      split
      · rename_i e he
        intro hfmt
        cases e with
        | formatError msg => exact checkCols_error he msg rfl
        | keyError c => simp [errIsFormat] at hfmt
        | typeError c => simp [errIsFormat] at hfmt
      · intro hfmt
        split at hfmt <;> simp [errIsFormat] at hfmt
    · intro hlt
      exact absurd hlt hge

/-- Claim C10: every successful parse, whether through the concatenation
branch or the no-failure fallback, returns a frame with exactly the seven
columns XAdr, YAdr, test_item, unit, value, limit_high, limit_low in that
order. -/
theorem claim_C10 (t : Table) (f : FailFrame)
    (h : parse_wafer_csv t = Except.ok f) :
    f.cols =
      ["XAdr", "YAdr", "test_item", "unit", "value", "limit_high",
       "limit_low"] :=
  (parse_ok_elim h).2

/-- Witness for claim C10 at a concrete successful parse. -/
theorem claim_C10_witness :
    parse_wafer_csv exTable = Except.ok exFrame ∧
    exFrame.cols =
      ["XAdr", "YAdr", "test_item", "unit", "value", "limit_high",
       "limit_low"] :=
  ⟨by decide, claim_C10 exTable exFrame (by decide)⟩

/-- Claim C7 (refuting the claim as stated): on a table whose header row
lacks the XAdr label the parser raises the pandas KeyError of the column
lookup, not the FormatError the claim requires, and the error names only
the missing column, not the offending file. -/
theorem claim_C7_counterexample :
    parse_wafer_csv exTableNoXAdr =
      Except.error (ParseError.keyError "XAdr") ∧
    errIsFormat (parse_wafer_csv exTableNoXAdr) = false := by
  decide

/-- Claim C7 as amended: on every table that passes the row-count check but
whose resolved header labels do not contain XAdr, parsing fails with the
pandas KeyError for XAdr (a bare column-lookup error carrying no file
name), not with the FormatError. -/
theorem claim_C7_amended (t : Table)
    (h6 : ¬ (prepTable t).length < 6)
    (hx : Cell.str "XAdr" ∉ (mkParseCtx (prepTable t)).headers) :
    parse_wafer_csv t = Except.error (ParseError.keyError "XAdr") := by
  have hcount : countCell (mkParseCtx (prepTable t)).headers "XAdr" = 0 :=
    List.count_eq_zero.mpr hx
  unfold parse_wafer_csv
  rw [if_neg h6]
  have hck :
      checkCols (mkParseCtx (prepTable t)).headers
        (["XAdr", "YAdr"] ++ (mkParseCtx (prepTable t)).items) =
        Except.error (ParseError.keyError "XAdr") := by
    rw [show (["XAdr", "YAdr"] ++ (mkParseCtx (prepTable t)).items) =
        "XAdr" :: ("YAdr" :: (mkParseCtx (prepTable t)).items) from rfl]
    rw [checkCols, checkCol, hcount]
  rw [hck]

/-- Witness for the amended claim C7 at a concrete table. -/
theorem claim_C7_amended_witness :
    ¬ (prepTable exTableNoXAdr).length < 6 ∧
    Cell.str "XAdr" ∉ (mkParseCtx (prepTable exTableNoXAdr)).headers ∧
    parse_wafer_csv exTableNoXAdr =
      Except.error (ParseError.keyError "XAdr") :=
  ⟨by decide, by decide,
    claim_C7_amended exTableNoXAdr (by decide) (by decide)⟩

/-- Claim C8: with both parsed failure collections empty the comparator
short-circuits: no join is formed, only the no-failures notice is printed
and no file is written; with at least one non-empty side it builds the
joined report and writes both coverage.csv and summary.csv. -/
theorem claim_C8 (dfA dfB : List FailureRecord) (tA tB : List String) :
    (dfA = [] ∧ dfB = [] →
      compareCore dfA dfB tA tB = CompareRun.noFailures ∧
      (compareCore dfA dfB tA tB).effects =
        [Effect.printMsg "Both files have no failures to compare"] ∧
      ∀ name, Effect.writeFile name ∉ (compareCore dfA dfB tA tB).effects) ∧
    (¬ (dfA = [] ∧ dfB = []) →
      (∃ m cov s, compareCore dfA dfB tA tB = CompareRun.report m cov s) ∧
      Effect.writeFile "coverage.csv" ∈ (compareCore dfA dfB tA tB).effects ∧
      Effect.writeFile "summary.csv" ∈ (compareCore dfA dfB tA tB).effects) := by
  constructor
  · rintro ⟨rfl, rfl⟩
    refine ⟨rfl, rfl, ?_⟩
    intro name hmem
    simp [compareCore, CompareRun.effects] at hmem
  · intro hne
    have hcond : (dfA.isEmpty && dfB.isEmpty) = false := by
      rcases not_and_or.mp hne with h | h <;>
        simp [List.isEmpty_iff, h, Bool.and_eq_false_iff]
    rw [compareCore, if_neg (by simp [hcond])]
    exact ⟨⟨_, _, _, rfl⟩, by simp [CompareRun.effects],
      by simp [CompareRun.effects]⟩

/-- Witness for claim C8: the short-circuit at two empty collections and
the two file writes when one side has a failure. -/
theorem claim_C8_witness :
    compareCore [] [] [] [] = CompareRun.noFailures ∧
    Effect.writeFile "coverage.csv" ∈
      (compareCore [exRec] [] ["T"] ["T"]).effects ∧
    Effect.writeFile "summary.csv" ∈
      (compareCore [exRec] [] ["T"] ["T"]).effects :=
  ⟨((claim_C8 [] [] [] []).1 ⟨rfl, rfl⟩).1,
    ((claim_C8 [exRec] [] ["T"] ["T"]).2 (by simp)).2.1,
    ((claim_C8 [exRec] [] ["T"] ["T"]).2 (by simp)).2.2⟩

/-- The naming loop preserves list length. -/
lemma uniqueNamesGo_length (ps : List (String × String))
    (counts : String → Nat) :
    (uniqueNamesGo ps counts).length = ps.length := by
  induction ps generalizing counts with
  | nil => rfl
  | cons p rest ih =>
    obtain ⟨g, it⟩ := p
    simp [uniqueNamesGo, ih]

/-- Position k of the naming loop output: the base name of pair k gets the
count accumulated so far (the initial count of that base plus its
occurrences among the earlier pairs) plus one, and is suffixed exactly when
that count exceeds one. -/
lemma uniqueNamesGo_getD (ps : List (String × String)) (counts : String → Nat)
    (k : Nat) (hk : k < ps.length) :
    (uniqueNamesGo ps counts).getD k "" =
      suffixName (baseOf (ps.getD k ("", "")).1 (ps.getD k ("", "")).2)
        (counts (baseOf (ps.getD k ("", "")).1 (ps.getD k ("", "")).2) +
          ((ps.take k).map fun q => baseOf q.1 q.2).count
            (baseOf (ps.getD k ("", "")).1 (ps.getD k ("", "")).2) + 1) := by
  induction ps generalizing counts k with
  | nil => simp at hk
  | cons p rest ih =>
    obtain ⟨g, it⟩ := p
    cases k with
    | zero => simp [uniqueNamesGo]
    | succ k =>
      have hk' : k < rest.length := by simpa using hk
      show (uniqueNamesGo rest fun kk =>
        if kk = baseOf g it then counts (baseOf g it) + 1 else counts kk).getD
          k "" = _
      rw [ih _ k hk']
      simp only [List.getD_cons_succ, List.take_succ_cons, List.map_cons]
      congr 1
      by_cases hb : baseOf (rest.getD k ("", "")).1
          (rest.getD k ("", "")).2 = baseOf g it
      · rw [if_pos hb, congrArg counts hb, ← hb, List.count_cons_self]
        omega
      · rw [if_neg hb, List.count_cons_of_ne hb]

/-- The positional statement of claim C2 for one index: the name at k is
the base string of pair k, unsuffixed when no earlier pair has the same
base, else suffixed with the 1-based occurrence count of that base. -/
def c2Statement (gs its : List String) (k : Nat) : Prop :=
  (unique_test_names gs its).getD k "" =
    (let base := baseOf (gs.getD k "") (its.getD k "")
     let prior := (((gs.zip its).take k).map fun q => baseOf q.1 q.2).count base
     if prior = 0 then base else base ++ "_" ++ toString (prior + 1))

/-- Claim C2: for equal-length group and item lists the disambiguator
returns, in input order, the dash-joined base for a first occurrence and
the base suffixed with the 1-based occurrence count for every later
occurrence; in particular groups G, G, H with items X, X, X yield exactly
G-X, G-X_2, H-X in that order. -/
theorem claim_C2 (gs its : List String) (hlen : gs.length = its.length)
    (k : Nat) (hk : k < gs.length) :
    c2Statement gs its k ∧
    unique_test_names ["G", "G", "H"] ["X", "X", "X"] =
      ["G-X", "G-X_2", "H-X"] := by
  refine ⟨?_, by decide⟩
  have hkz : k < (gs.zip its).length := by
    simpa [List.length_zip, hlen] using hk
  have hki : k < its.length := hlen ▸ hk
  have hget : (gs.zip its).getD k ("", "") = (gs.getD k "", its.getD k "") := by
    rw [List.getD_eq_getElem _ _ hkz, List.getD_eq_getElem _ _ hk,
      List.getD_eq_getElem _ _ hki]
    exact List.getElem_zip
  rw [c2Statement, unique_test_names, uniqueNamesGo_getD _ _ k hkz]
  simp only [hget, Nat.zero_add]
  rcases Nat.eq_zero_or_pos
      ((((gs.zip its).take k).map fun q => baseOf q.1 q.2).count
        (baseOf (gs.getD k "") (its.getD k ""))) with hz | hpos
  · rw [hz]
    simp [suffixName]
  · have h1 : ¬ (((gs.zip its).take k).map fun q => baseOf q.1 q.2).count
        (baseOf (gs.getD k "") (its.getD k "")) = 0 := by omega
    have h2 : ((((gs.zip its).take k).map fun q => baseOf q.1 q.2).count
        (baseOf (gs.getD k "") (its.getD k ""))) + 1 > 1 := by omega
    simp only [suffixName, if_pos h2, if_neg h1]

/-- Witness for claim C2 at the suffixed position of a concrete repeated
pair. -/
theorem claim_C2_witness :
    (["G", "G"] : List String).length = (["X", "X"] : List String).length ∧
    1 < (["G", "G"] : List String).length ∧
    c2Statement ["G", "G"] ["X", "X"] 1 ∧
    unique_test_names ["G", "G", "H"] ["X", "X", "X"] =
      ["G-X", "G-X_2", "H-X"] :=
  ⟨rfl, by decide, (claim_C2 ["G", "G"] ["X", "X"] rfl 1 (by decide)).1,
    (claim_C2 ["G", "G"] ["X", "X"] rfl 1 (by decide)).2⟩

/-- The table is rectangular: every row has the frame's column count, as
read_csv guarantees for its output. -/
abbrev Rect (t : Table) : Prop := ∀ r ∈ t, r.length = ncols t

/-- On a rectangular table with no entirely-empty column, the column drop
is the identity. -/
lemma dropEmptyCols_id (t : Table) (hrect : Rect t)
    (hcols : ∀ j, j < ncols t → colAllEmpty t j = false) :
    dropEmptyCols t = t := by
  have hkept : keptCols t = List.range (ncols t) := by
    rw [keptCols, List.filter_eq_self]
    intro j hj
    rw [hcols j (List.mem_range.mp hj)]
    rfl
  rw [dropEmptyCols, hkept]
  have hrow : ∀ r ∈ t, ((List.range (ncols t)).map fun j =>
      r.getD j Cell.empty) = r := by
    intro r hr
    have hlen : r.length = ncols t := hrect r hr
    apply List.ext_getElem
    · simp [hlen]
    · intro i h1 h2
      have hi : i < ncols t := by simpa using h1
      rw [List.getElem_map, List.getElem_range,
        List.getD_eq_getElem r Cell.empty (hlen ▸ hi)]
  calc t.map (fun r => (List.range (ncols t)).map fun j => r.getD j Cell.empty)
      = t.map id := List.map_congr_left fun r hr => hrow r hr
    _ = t := List.map_id t

/-- With no entirely-empty row, the row drop is the identity. -/
lemma dropEmptyRows_id (t : Table)
    (hrows : ∀ r ∈ t, rowAllEmpty r = false) :
    dropEmptyRows t = t := by
  rw [dropEmptyRows, List.filter_eq_self]
  intro r hr
  rw [hrows r hr]
  rfl

/-- On one and the same classified rectangular table with no entirely-empty
row and no entirely-empty column, the name computation of get_test_items
coincides with the one inside parse_wafer_csv: the drops are the identity
and both run the same computation on rows 0 and 1.  This is only half of
claim C9: the program derives the two tables from two separate read_csv
calls whose dtype inference can differ (see the raw-read layer below). -/
lemma tableTestItems_agree (t : Table) (hrect : Rect t)
    (hrows : ∀ r ∈ t, rowAllEmpty r = false)
    (hcols : ∀ j, j < ncols t → colAllEmpty t j = false) :
    get_test_items t = (mkParseCtx (prepTable t)).items := by
  have hprep : prepTable t = t := by
    rw [prepTable, dropEmptyCols_id t hrect hcols, dropEmptyRows_id t hrows]
  rw [hprep]
  rfl

/-- Membership in the extraction loop from start index n: some item
position k and some data row produce the record. -/
lemma mem_extractGo {c : ParseCtx} {rec : FailureRecord} (n : Nat)
    (l : List String) :
    rec ∈ extractGo c n l ↔
      ∃ k, k < l.length ∧
        rec ∈ c.dataRows.filterMap (rowFailure c (n + k) (l.getD k "")) := by
  induction l generalizing n with
  | nil => simp [extractGo]
  | cons item rest ih =>
    rw [extractGo]
    simp only [List.mem_append, ih (n + 1)]
    constructor
    · rintro (h | ⟨k, hk, hmem⟩)
      · exact ⟨0, by simp, by simpa using h⟩
      · refine ⟨k + 1, by simpa using hk, ?_⟩
        have harith : n + 1 + k = n + (k + 1) := by omega
        rw [harith] at hmem
        simpa using hmem
    · rintro ⟨k, hk, hmem⟩
      cases k with
      | zero =>
        left
        simpa using hmem
      | succ k =>
        right
        refine ⟨k, by simpa using hk, ?_⟩
        have harith : n + (k + 1) = n + 1 + k := by omega
        rw [harith] at hmem
        simpa using hmem

/-- rowFailure returns a record exactly when the coerced reading exists and
trips the mask, and then the record's fields are the selected columns. -/
lemma rowFailure_eq_some {c : ParseCtx} {idx : Nat} {item : String}
    {r : List Cell} {rec : FailureRecord} :
    rowFailure c idx item r = some rec ↔
      ∃ v, (cellAt r (colIdx c.headers item)).toNum = some v ∧
        failsAt v (c.uppers.getD idx none) (c.lowers.getD idx none) = true ∧
        rec = { XAdr := (cellAt r (colIdx c.headers "XAdr")).toNum
                YAdr := (cellAt r (colIdx c.headers "YAdr")).toNum
                test_item := item
                unit := c.units.getD idx ""
                value := v
                limit_high := c.uppers.getD idx none
                limit_low := c.lowers.getD idx none } := by
  cases htn : (cellAt r (colIdx c.headers item)).toNum with
  | none => simp [rowFailure, htn]
  | some v =>
    by_cases hf :
        failsAt v (c.uppers.getD idx none) (c.lowers.getD idx none) = true
    · simp only [rowFailure, htn, if_pos hf]
      constructor
      · intro hsome
        exact ⟨v, rfl, hf, (Option.some.inj hsome).symm⟩
      · rintro ⟨v', hv', hf', hrec⟩
        cases Option.some.inj hv'
        rw [hrec]
    · simp only [rowFailure, htn, if_neg hf]
      constructor
      · intro hnone
        cases hnone
      · rintro ⟨v', hv', hf', hrec⟩
        cases Option.some.inj hv'
        exact absurd hf' hf

/-- The reading lies strictly outside the limit interval: strictly above a
present upper limit or strictly below a present lower limit. -/
def strictlyOutside (v : ℚ) (lo hi : Option ℚ) : Prop :=
  (∃ u, hi = some u ∧ u < v) ∨ (∃ l, lo = some l ∧ v < l)

/-- A tripped mask means the reading is strictly outside; absent limits are
non-binding and equality at a limit never trips the strict comparisons. -/
lemma failsAt_outside {v : ℚ} {hi lo : Option ℚ}
    (h : failsAt v hi lo = true) : strictlyOutside v lo hi := by
  rw [failsAt, Bool.or_eq_true] at h
  rcases h with h | h
  · cases hi with
    | none => simp [gtLim] at h
    | some u => exact Or.inl ⟨u, rfl, by simpa [gtLim] using h⟩
  · cases lo with
    | none => simp [ltLim] at h
    | some l => exact Or.inr ⟨l, rfl, by simpa [ltLim] using h⟩

/-- Soundness half of claim C1: every emitted record comes from some test
item and data row whose coerced reading exists, trips that column's mask,
and fills the record's fields. -/
def emissionSound (c : ParseCtx) (recs : List FailureRecord) : Prop :=
  ∀ rec ∈ recs, ∃ idx r, idx < c.items.length ∧ r ∈ c.dataRows ∧
    rec.test_item = c.items.getD idx "" ∧
    (cellAt r (colIdx c.headers (c.items.getD idx ""))).toNum =
      some rec.value ∧
    rec.XAdr = (cellAt r (colIdx c.headers "XAdr")).toNum ∧
    rec.YAdr = (cellAt r (colIdx c.headers "YAdr")).toNum ∧
    rec.limit_high = c.uppers.getD idx none ∧
    rec.limit_low = c.lowers.getD idx none ∧
    failsAt rec.value (c.uppers.getD idx none) (c.lowers.getD idx none) =
      true

/-- Completeness half of claim C1: every data row whose coerced reading for
some test item trips that column's mask yields an emitted record with that
item, value and die coordinates. -/
def emissionComplete (c : ParseCtx) (recs : List FailureRecord) : Prop :=
  ∀ idx, idx < c.items.length → ∀ r ∈ c.dataRows, ∀ v,
    (cellAt r (colIdx c.headers (c.items.getD idx ""))).toNum = some v →
    failsAt v (c.uppers.getD idx none) (c.lowers.getD idx none) = true →
    ∃ rec ∈ recs, rec.test_item = c.items.getD idx "" ∧ rec.value = v ∧
      rec.XAdr = (cellAt r (colIdx c.headers "XAdr")).toNum ∧
      rec.YAdr = (cellAt r (colIdx c.headers "YAdr")).toNum ∧
      rec.limit_high = c.uppers.getD idx none ∧
      rec.limit_low = c.lowers.getD idx none

/-- The record rowFailure builds for item position idx, data row r and
coerced reading v (the existential witness of emissionComplete). -/
def c1Record (c : ParseCtx) (idx : Nat) (r : List Cell) (v : ℚ) :
    FailureRecord :=
  { XAdr := (cellAt r (colIdx c.headers "XAdr")).toNum
    YAdr := (cellAt r (colIdx c.headers "YAdr")).toNum
    test_item := c.items.getD idx ""
    unit := c.units.getD idx ""
    value := v
    limit_high := c.uppers.getD idx none
    limit_low := c.lowers.getD idx none }

/-- Claim C1: a record is emitted for a die's reading if and only if the
coerced numeric reading exists and is strictly greater than the column's
upper limit or strictly less than its lower limit, a non-numeric limit
being non-binding and NaN comparing false; consequently every emitted value
lies strictly outside the limit interval and a reading exactly at a limit
never triggers an emission. -/
theorem claim_C1 (t : Table) (f : FailFrame)
    (h : parse_wafer_csv t = Except.ok f) :
    emissionSound (mkParseCtx (prepTable t)) f.recs ∧
    emissionComplete (mkParseCtx (prepTable t)) f.recs ∧
    ∀ rec ∈ f.recs, strictlyOutside rec.value rec.limit_low rec.limit_high := by
  obtain ⟨hrecs, -⟩ := parse_ok_elim h
  have hsound : emissionSound (mkParseCtx (prepTable t)) f.recs := by
    intro rec hrec
    rw [hrecs, extractFailures] at hrec
    obtain ⟨k, hk, hmem⟩ := (mem_extractGo 0 _).mp hrec
    rw [Nat.zero_add] at hmem
    obtain ⟨r, hr, hrf⟩ := List.mem_filterMap.mp hmem
    obtain ⟨v, hv, hf, hrec_eq⟩ := rowFailure_eq_some.mp hrf
    subst hrec_eq
    exact ⟨k, r, hk, hr, rfl, hv, rfl, rfl, rfl, rfl, hf⟩
  refine ⟨hsound, ?_, ?_⟩
  · intro idx hidx r hr v hv hf
    refine ⟨c1Record (mkParseCtx (prepTable t)) idx r v,
      ?_, rfl, rfl, rfl, rfl, rfl, rfl⟩
    rw [hrecs, extractFailures]
    refine (mem_extractGo 0 _).mpr ⟨idx, hidx, ?_⟩
    rw [Nat.zero_add]
    exact List.mem_filterMap.mpr ⟨r, hr,
      rowFailure_eq_some.mpr ⟨v, hv, hf, rfl⟩⟩
  · intro rec hrec
    obtain ⟨idx, r, -, -, -, -, -, -, hhi, hlo, hf⟩ := hsound rec hrec
    rw [← hhi, ← hlo] at hf
    exact failsAt_outside hf

/-- Witness for claim C1 at a concrete successful parse with one failing
die. -/
theorem claim_C1_witness :
    parse_wafer_csv exTable = Except.ok exFrame ∧
    emissionSound (mkParseCtx (prepTable exTable)) exFrame.recs ∧
    emissionComplete (mkParseCtx (prepTable exTable)) exFrame.recs ∧
    ∀ rec ∈ exFrame.recs,
      strictlyOutside rec.value rec.limit_low rec.limit_high :=
  ⟨by decide, (claim_C1 exTable exFrame (by decide)).1,
    (claim_C1 exTable exFrame (by decide)).2.1,
    (claim_C1 exTable exFrame (by decide)).2.2⟩

/-- The status function always yields exactly one of the three labels: the
if-chain is exhaustive and the labels are distinct strings. -/
lemma statusRow_trichotomy (r : MergedRow) :
    statusRow r = "both_fail" ∨ statusRow r = "fail_in_a_only" ∨
      statusRow r = "fail_in_b_only" := by
  rw [statusRow]
  split
  · exact Or.inl rfl
  · split
    · exact Or.inr (Or.inl rfl)
    · exact Or.inr (Or.inr rfl)

/-- Each joined row carries exactly one status, so the three status counts
add up to the number of joined rows. -/
lemma statusCounts_sum (L : List MergedRow) :
    ((L.map fun r => (r, statusRow r)).countP fun p =>
        decide (p.2 = "both_fail")) +
      ((L.map fun r => (r, statusRow r)).countP fun p =>
        decide (p.2 = "fail_in_a_only")) +
      ((L.map fun r => (r, statusRow r)).countP fun p =>
        decide (p.2 = "fail_in_b_only")) = L.length := by
  induction L with
  | nil => rfl
  | cons r L ih =>
    simp only [List.map_cons, List.countP_cons, List.length_cons]
    rcases statusRow_trichotomy r with h | h | h <;>
      simp [h, List.countP_map] at ih ⊢ <;> omega

/-- Under unique join keys on the B side, at most one B record matches a
given key. -/
lemma filter_key_length_le_one (dfB : List FailureRecord)
    (hb : (dfB.map keyOf).Nodup) (K : MKey) :
    (dfB.filter fun rb => decide (keyOf rb = K)).length ≤ 1 := by
  have h1 : (dfB.filter fun rb => decide (keyOf rb = K)).length =
      (dfB.map keyOf).count K := by
    rw [← List.countP_eq_length_filter, List.count_eq_countP,
      List.countP_map]
    rfl
  rw [h1]
  exact List.nodup_iff_count_le_one.mp hb K

/-- Under unique B keys, the left block of the outer join has one row per A
record: its key matches yield one row each (or one left-only row when
unmatched). -/
lemma mergeOuter_left_length (dfA dfB : List FailureRecord)
    (hb : (dfB.map keyOf).Nodup) :
    (dfA.flatMap fun ra =>
      let ms := dfB.filter fun rb => decide (keyOf rb = keyOf ra)
      if ms.isEmpty then [mkLeftOnly ra]
      else ms.map (mkBoth ra)).length = dfA.length := by
  induction dfA with
  | nil => rfl
  | cons ra rest ih =>
    rw [List.flatMap_cons, List.length_append, ih]
    have hhead :
        (if (dfB.filter fun rb => decide (keyOf rb = keyOf ra)).isEmpty then
          [mkLeftOnly ra]
        else (dfB.filter fun rb =>
          decide (keyOf rb = keyOf ra)).map (mkBoth ra)).length = 1 := by
      by_cases he :
          (dfB.filter fun rb => decide (keyOf rb = keyOf ra)).isEmpty
      · rw [if_pos he]
        rfl
      · rw [if_neg he, List.length_map]
        have hle := filter_key_length_le_one dfB hb (keyOf ra)
        have hpos : 0 <
            (dfB.filter fun rb => decide (keyOf rb = keyOf ra)).length :=
          List.length_pos.mpr (by simpa [List.isEmpty_iff] using he)
        omega
    show (if (dfB.filter fun rb => decide (keyOf rb = keyOf ra)).isEmpty then
        [mkLeftOnly ra]
      else (dfB.filter fun rb =>
        decide (keyOf rb = keyOf ra)).map (mkBoth ra)).length + rest.length =
      (ra :: rest).length
    rw [hhead, List.length_cons]
    omega

/-- Number of joined rows under unique keys on both sides: one per A record
plus one per unmatched B record. -/
lemma mergeOuter_length (dfA dfB : List FailureRecord)
    (hb : (dfB.map keyOf).Nodup) :
    (mergeOuter dfA dfB).length =
      dfA.length + dfB.countP fun rb =>
        !dfA.any fun ra => decide (keyOf ra = keyOf rb) := by
  rw [mergeOuter, List.length_append, mergeOuter_left_length dfA dfB hb,
    List.length_map, ← List.countP_eq_length_filter]

/-- The number of distinct keys of the two collections, under per-side key
uniqueness, is the A count plus the count of B records whose key matches no
A record. -/
lemma key_card (dfA dfB : List FailureRecord)
    (ha : (dfA.map keyOf).Nodup) (hb : (dfB.map keyOf).Nodup) :
    ((dfA ++ dfB).map keyOf).toFinset.card =
      dfA.length + dfB.countP fun rb =>
        !dfA.any fun ra => decide (keyOf ra = keyOf rb) := by
  have hcard2 : ((dfB.map keyOf).toFinset \ (dfA.map keyOf).toFinset).card =
      dfB.countP fun rb =>
        !dfA.any fun ra => decide (keyOf ra = keyOf rb) := by
    have hfin : (dfB.map keyOf).toFinset \ (dfA.map keyOf).toFinset =
        ((dfB.map keyOf).filter fun k =>
          decide (k ∉ (dfA.map keyOf).toFinset)).toFinset := by
      ext k
      simp [Finset.mem_sdiff, List.mem_filter]
    rw [hfin, List.toFinset_card_of_nodup (hb.filter _),
      ← List.countP_eq_length_filter, List.countP_map]
    apply List.countP_congr
    intro rb _
    simp [List.mem_map, Function.comp, List.any_eq_true]
  rw [List.map_append, List.toFinset_append,
    ← Finset.union_sdiff_self_eq_union,
    Finset.card_union_of_disjoint Finset.disjoint_sdiff,
    List.toFinset_card_of_nodup ha, List.length_map, hcard2]

/-- Claim C4 (refuting the claim as stated): with two A failures on the
same (x, y, item) key and an empty B, the outer join yields two
fail-in-a-only rows while only one distinct key exists, so the three status
counts do not add up to the distinct-key count. -/
theorem claim_C4_counterexample :
    ¬ ((((compareCore [exRec, exRecDupKey] [] [] []).merged.countP fun p =>
          decide (p.2 = "both_fail")) +
        ((compareCore [exRec, exRecDupKey] [] [] []).merged.countP fun p =>
          decide (p.2 = "fail_in_a_only")) +
        ((compareCore [exRec, exRecDupKey] [] [] []).merged.countP fun p =>
          decide (p.2 = "fail_in_b_only"))) =
      (([exRec, exRecDupKey] ++ ([] : List FailureRecord)).map
        keyOf).toFinset.card) := by
  decide

/-- Claim C4 as amended: every joined row carries exactly one of the three
statuses, unconditionally; and when additionally no two records of A share
a join key and no two records of B share one, the three status counts add
up to the number of distinct keys occurring in A or B. -/
theorem claim_C4_amended (dfA dfB : List FailureRecord)
    (tA tB : List String)
    (m : List (MergedRow × String)) (cov : ℚ) (s : List SummaryRow)
    (h : compareCore dfA dfB tA tB = CompareRun.report m cov s) :
    (∀ p ∈ m, p.2 = "both_fail" ∨ p.2 = "fail_in_a_only" ∨
      p.2 = "fail_in_b_only") ∧
    ((dfA.map keyOf).Nodup → (dfB.map keyOf).Nodup →
      (m.countP fun p => decide (p.2 = "both_fail")) +
        (m.countP fun p => decide (p.2 = "fail_in_a_only")) +
        (m.countP fun p => decide (p.2 = "fail_in_b_only")) =
        ((dfA ++ dfB).map keyOf).toFinset.card) := by
  rw [compareCore] at h
  split at h
  · cases h
  · injection h with hm hcov hs
    subst hm
    constructor
    · intro p hp
      obtain ⟨r, hr, hpr⟩ := List.mem_map.mp hp
      cases hpr
      exact statusRow_trichotomy r
    · intro ha hb
      rw [statusCounts_sum (mergeOuter dfA dfB),
        mergeOuter_length dfA dfB hb, key_card dfA dfB ha hb]

/-- Witness for the amended claim C4: the trichotomy at a duplicate-key A
side (where the count equation fails), and the count equation at a
unique-key A side. -/
theorem claim_C4_amended_witness :
    (∀ p ∈ (compareCore [exRec, exRecDupKey] [] [] []).merged,
      p.2 = "both_fail" ∨ p.2 = "fail_in_a_only" ∨
        p.2 = "fail_in_b_only") ∧
    ([exRec].map keyOf).Nodup ∧
    (([] : List FailureRecord).map keyOf).Nodup ∧
    (((compareCore [exRec] [] [] []).merged.countP fun p =>
        decide (p.2 = "both_fail")) +
      ((compareCore [exRec] [] [] []).merged.countP fun p =>
        decide (p.2 = "fail_in_a_only")) +
      ((compareCore [exRec] [] [] []).merged.countP fun p =>
        decide (p.2 = "fail_in_b_only")) =
      (([exRec] ++ ([] : List FailureRecord)).map keyOf).toFinset.card) :=
  ⟨(claim_C4_amended [exRec, exRecDupKey] [] [] []
      ((compareCore [exRec, exRecDupKey] [] [] []).merged)
      ((compareCore [exRec, exRecDupKey] [] [] []).coverage)
      ((compareCore [exRec, exRecDupKey] [] [] []).summary) rfl).1,
    by decide, by decide,
    (claim_C4_amended [exRec] [] [] []
      ((compareCore [exRec] [] [] []).merged)
      ((compareCore [exRec] [] [] []).coverage)
      ((compareCore [exRec] [] [] []).summary) rfl).2
      (by decide) (by decide)⟩

/-- Round half to even never goes below the floor. -/
lemma roundHalfEven_ge_floor (q : ℚ) : ⌊q⌋ ≤ roundHalfEven q := by
  rw [roundHalfEven]
  split
  · exact le_refl _
  · split
    · omega
    · split
      · exact le_refl _
      · omega

/-- Round half to even never exceeds the ceiling. -/
lemma roundHalfEven_le_ceil (q : ℚ) : roundHalfEven q ≤ ⌈q⌉ := by
  rw [roundHalfEven]
  split
  · exact Int.floor_le_ceil q
  · rename_i h1
    have hlt : (⌊q⌋ : ℚ) < q := by
      have h1' := not_lt.mp h1
      linarith
    have hc : ⌊q⌋ < ⌈q⌉ := Int.lt_ceil.mpr hlt
    split
    · omega
    · split
      · omega
      · omega

/-- Rounding at two decimals preserves non-negativity. -/
lemma round2_nonneg {q : ℚ} (h : 0 ≤ q) : 0 ≤ round2 q := by
  rw [round2]
  have h1 : (0 : ℤ) ≤ ⌊q * 100⌋ := Int.floor_nonneg.mpr (by positivity)
  have h2 := roundHalfEven_ge_floor (q * 100)
  have h3 : (0 : ℤ) ≤ roundHalfEven (q * 100) := le_trans h1 h2
  have h4 : (0 : ℚ) ≤ (roundHalfEven (q * 100) : ℚ) := by exact_mod_cast h3
  positivity

/-- Rounding at two decimals preserves the upper bound 100. -/
lemma round2_le_100 {q : ℚ} (h : q ≤ 100) : round2 q ≤ 100 := by
  rw [round2]
  have h1 : ⌈q * 100⌉ ≤ 10000 := by
    rw [Int.ceil_le]
    push_cast
    linarith
  have h2 := roundHalfEven_le_ceil (q * 100)
  have h3 : roundHalfEven (q * 100) ≤ 10000 := le_trans h2 h1
  rw [div_le_iff₀ (by norm_num : (0 : ℚ) < 100)]
  calc ((roundHalfEven (q * 100) : ℤ) : ℚ) ≤ ((10000 : ℤ) : ℚ) := by
        exact_mod_cast h3
    _ = 100 * 100 := by norm_num

/-- The per-item coverage percentage is never negative. -/
lemma covPct_nonneg (b f : Nat) : 0 ≤ covPct b f := by
  rw [covPct]
  split
  · exact le_refl 0
  · exact round2_nonneg (by positivity)

/-- The per-item coverage percentage never exceeds 100 when the matched
count is bounded by the failure count. -/
lemma covPct_le_100 {b f : Nat} (h : b ≤ f) : covPct b f ≤ 100 := by
  rw [covPct]
  split
  · norm_num
  · rename_i hf
    apply round2_le_100
    have hf' : (0 : ℚ) < (f : ℚ) := by
      exact_mod_cast Nat.pos_of_ne_zero hf
    have hb : (b : ℚ) ≤ (f : ℚ) := Nat.cast_le.mpr h
    have hdiv : (b : ℚ) / (f : ℚ) ≤ 1 := (div_le_one hf').mpr hb
    calc (b : ℚ) / (f : ℚ) * 100 ≤ 1 * 100 := by
          exact mul_le_mul_of_nonneg_right hdiv (by norm_num)
      _ = 100 := by norm_num

/-- A zero failure count yields coverage 0, not a division error. -/
lemma covPct_zero (b : Nat) : covPct b 0 = 0 := by
  rw [covPct]
  simp

/-- A both_fail status means the A value is present. -/
lemma statusRow_both_value_a {r : MergedRow}
    (h : statusRow r = "both_fail") : r.value_a.isSome = true := by
  rw [statusRow] at h
  split at h
  · rename_i hc
    rw [Bool.and_eq_true] at hc
    exact hc.1
  · split at h
    · exact absurd h (by decide)
    · exact absurd h (by decide)

/-- A both_fail status means the B value is present. -/
lemma statusRow_both_value_b {r : MergedRow}
    (h : statusRow r = "both_fail") : r.value_b.isSome = true := by
  rw [statusRow] at h
  split at h
  · rename_i hc
    rw [Bool.and_eq_true] at hc
    exact hc.2
  · split at h
    · exact absurd h (by decide)
    · exact absurd h (by decide)

/-- Claim C5: the overall coverage is the both_fail count over the A
failure count times 100, and 0 when A has no failures; and every summary
row's coverage percentages lie in the closed interval from 0 to 100, with 0
(never a division error) when the corresponding failure count is 0. -/
theorem claim_C5 (dfA dfB : List FailureRecord) (tA tB : List String)
    (m : List (MergedRow × String)) (cov : ℚ) (s : List SummaryRow)
    (h : compareCore dfA dfB tA tB = CompareRun.report m cov s) :
    (dfA.length = 0 → cov = 0) ∧
    (dfA.length ≠ 0 → cov =
      ((m.countP fun p => decide (p.2 = "both_fail") : ℕ) : ℚ) /
        (dfA.length : ℚ) * 100) ∧
    ∀ row ∈ s, 0 ≤ row.coverage_a_in_b ∧ row.coverage_a_in_b ≤ 100 ∧
      0 ≤ row.coverage_b_in_a ∧ row.coverage_b_in_a ≤ 100 ∧
      (row.fails_a = 0 → row.coverage_a_in_b = 0) ∧
      (row.fails_b = 0 → row.coverage_b_in_a = 0) := by
  rw [compareCore] at h
  split at h
  · cases h
  · injection h with hm hcov hs
    subst hm hcov hs
    refine ⟨?_, ?_, ?_⟩
    · intro h0
      rw [if_pos h0]
    · intro hne
      rw [if_neg hne]
    · intro row hrow
      rw [summarize_by_test_item] at hrow
      obtain ⟨k, hk, hrowk⟩ := List.mem_map.mp hrow
      subst hrowk
      have hpm : ∀ p ∈ ((mergeOuter dfA dfB).map fun r =>
          (r, statusRow r)).filter fun p => decide (p.1.test_item = k),
          p.2 = statusRow p.1 := by
        intro p hp
        obtain ⟨r, -, hpr⟩ := List.mem_map.mp (List.mem_filter.mp hp).1
        cases hpr
        rfl
      have hba : (((mergeOuter dfA dfB).map fun r =>
          (r, statusRow r)).filter fun p =>
            decide (p.1.test_item = k)).countP
            (fun p => decide (p.2 = "both_fail")) ≤
          (((mergeOuter dfA dfB).map fun r =>
            (r, statusRow r)).filter fun p =>
              decide (p.1.test_item = k)).countP
            fun p => p.1.value_a.isSome := by
        apply List.countP_mono_left
        intro p hp hboth
        have hst := hpm p hp
        rw [hst] at hboth
        exact statusRow_both_value_a (of_decide_eq_true hboth)
      have hbb : (((mergeOuter dfA dfB).map fun r =>
          (r, statusRow r)).filter fun p =>
            decide (p.1.test_item = k)).countP
            (fun p => decide (p.2 = "both_fail")) ≤
          (((mergeOuter dfA dfB).map fun r =>
            (r, statusRow r)).filter fun p =>
              decide (p.1.test_item = k)).countP
            fun p => p.1.value_b.isSome := by
        apply List.countP_mono_left
        intro p hp hboth
        have hst := hpm p hp
        rw [hst] at hboth
        exact statusRow_both_value_b (of_decide_eq_true hboth)
      simp only [mkSummaryRow]
      refine ⟨covPct_nonneg _ _, covPct_le_100 hba, covPct_nonneg _ _,
        covPct_le_100 hbb, ?_, ?_⟩
      · intro hfa0
        rw [hfa0, covPct_zero]
      · intro hfb0
        rw [hfb0, covPct_zero]

/-- Witness for claim C5 at a concrete comparison with one A failure. -/
theorem claim_C5_witness :
    (([exRec] : List FailureRecord).length = 0 →
      (compareCore [exRec] [] ["T"] ["T"]).coverage = 0) ∧
    (([exRec] : List FailureRecord).length ≠ 0 →
      (compareCore [exRec] [] ["T"] ["T"]).coverage =
      (((compareCore [exRec] [] ["T"] ["T"]).merged.countP fun p =>
        decide (p.2 = "both_fail") : ℕ) : ℚ) /
        (([exRec] : List FailureRecord).length : ℚ) * 100) ∧
    ∀ row ∈ (compareCore [exRec] [] ["T"] ["T"]).summary,
      0 ≤ row.coverage_a_in_b ∧ row.coverage_a_in_b ≤ 100 ∧
      0 ≤ row.coverage_b_in_a ∧ row.coverage_b_in_a ≤ 100 ∧
      (row.fails_a = 0 → row.coverage_a_in_b = 0) ∧
      (row.fails_b = 0 → row.coverage_b_in_a = 0) :=
  claim_C5 [exRec] [] ["T"] ["T"]
    ((compareCore [exRec] [] ["T"] ["T"]).merged)
    ((compareCore [exRec] [] ["T"] ["T"]).coverage)
    ((compareCore [exRec] [] ["T"] ["T"]).summary) rfl

/-! The raw-read layer for claim C9.  get_test_items re-reads the file
with nrows set to 2, so read_csv infers its column dtypes from the first
two rows only, while parse_wafer_csv reads the whole file; astype(str)
rendering depends on the inferred dtype, so one and the same raw token can
render differently in the two reads (a numeric-looking group label such as
007 renders as 7 when the two header rows alone look numeric, but keeps
its raw text in the full read once the unit row breaks the conversion).
This layer models a raw table of tokens and the per-column numeric-or-not
classification over a sample of rows, exactly the mechanism of that
divergence.  Cells of numeric columns carry their parsed value and render
canonically (for integer-token columns this matches the int64 rendering of
pandas exactly); cells of object columns keep their raw token.  The
coercion claims stay at the classified-table level, where numeric content
is already a num cell. -/

/-- A raw CSV field before type inference: missing, or its token text. -/
abbrev RawCell := Option String

/-- The raw file after skiprows: rows of tokens. -/
abbrev RawTable := List (List RawCell)

/-- Number of columns of the raw frame. -/
def rawWidth (rt : RawTable) : Nat := (rt.map List.length).foldr max 0

/-- Value of a decimal digit character. -/
def charDigit (c : Char) : Option Nat :=
  if c.isDigit then some (c.toNat - 48) else none

/-- Accumulate decimal digits; none on a non-digit. -/
def parseDigitsAux : List Char → Nat → Option Nat
  | [], acc => some acc
  | c :: cs, acc =>
    match charDigit c with
    | some d => parseDigitsAux cs (acc * 10 + d)
    | none => none

/-- Parse a non-empty digit string. -/
def parseDigits (cs : List Char) : Option Nat :=
  if cs.isEmpty then none else parseDigitsAux cs 0

/-- Split a character list at its first dot. -/
def splitDot : List Char → List Char × Option (List Char)
  | [] => ([], none)
  | c :: rest =>
    if c = '.' then ([], some rest)
    else
      let p := splitDot rest
      (c :: p.1, p.2)

/-- The numeric tokens of the model: an optional minus sign, then decimal
digits with at most one dot and at least one digit (a subset of the tokens
pandas converts; tokens outside it count as non-numeric). -/
def parseTok (s : String) : Option ℚ :=
  let cs := s.toList
  let neg : Bool := match cs with | '-' :: _ => true | _ => false
  let cs1 : List Char := match cs with | '-' :: rest => rest | _ => cs
  let p := splitDot cs1
  match p.2 with
  | none =>
    match parseDigits p.1 with
    | some n => some (if neg then mkRat (-(n : ℤ)) 1 else mkRat (n : ℤ) 1)
    | none => none
  | some fp =>
    if p.1.isEmpty && fp.isEmpty then none
    else
      match (if p.1.isEmpty then some 0 else parseDigits p.1),
          (if fp.isEmpty then some 0 else parseDigits fp) with
      | some ipn, some fpn =>
        let num : ℤ := (ipn : ℤ) * (10 : ℤ) ^ fp.length + (fpn : ℤ)
        some (if neg then mkRat (-num) (10 ^ fp.length)
          else mkRat num (10 ^ fp.length))
      | _, _ => none

/-- A token counts as numeric when it parses. -/
def numericTok (s : String) : Bool := (parseTok s).isSome

/-- read_csv dtype inference for column j over the sampled rows: the
column converts to a numeric dtype exactly when every present token in it
is numeric (missing cells do not block the conversion). -/
def colIsNumeric (sample : RawTable) (j : Nat) : Bool :=
  sample.all fun r =>
    match r.getD j none with
    | none => true
    | some tok => numericTok tok

/-- A raw cell as it lands in the classified frame: missing stays NaN; in
a numeric column the token becomes its parsed value (rendered canonically
by astype(str)); in an object column it keeps its raw text.  The
non-parsing token of a numeric column cannot occur by classification. -/
def readCellAs (numericCol : Bool) (c : RawCell) : Cell :=
  match c with
  | none => Cell.empty
  | some tok =>
    if numericCol then
      match parseTok tok with
      | some q => Cell.num q
      | none => Cell.str tok
    else Cell.str tok

/-- Classify one row, cell by cell, from column position n on. -/
def readRowGo (sample : RawTable) : Nat → List RawCell → List Cell
  | _, [] => []
  | j, c :: rest =>
    readCellAs (colIsNumeric sample j) c :: readRowGo sample (j + 1) rest

/-- The classified frame of a read whose dtypes were inferred from the
given sample of rows. -/
def readTable (sample rt : RawTable) : Table :=
  rt.map fun r => readRowGo sample 0 r

/-- The full read of parse_wafer_csv: dtypes inferred from every row. -/
def readFull (rt : RawTable) : Table := readTable rt rt

/-- The re-read of get_test_items with nrows set to 2: only the first two
rows are read and dtypes are inferred from them alone. -/
def readHead2 (rt : RawTable) : Table := readTable (rt.take 2) (rt.take 2)

/-- get_test_items at the file level: the names derived from the 2-row
re-read. -/
def get_test_items_file (rt : RawTable) : List String :=
  get_test_items (readHead2 rt)

/-- A raw table whose ninth column holds the numeric-looking group label
007 and item label 1 over a non-numeric unit row: the 2-row read converts
that column (rendering 7) while the full read keeps it textual (rendering
007). -/
def exRawTable : RawTable :=
  [[some "a0", some "a1", some "a2", some "a3", some "a4", some "a5",
    some "a6", some "a7", some "007"],
   [some "b0", some "b1", some "b2", some "b3", some "b4", some "b5",
    some "b6", some "b7", some "1"],
   [some "c0", some "c1", some "c2", some "c3", some "c4", some "c5",
    some "c6", some "c7", some "3"],
   [some "d0", some "d1", some "d2", some "d3", some "d4", some "d5",
    some "d6", some "d7", some "1"],
   [some "XAdr", some "YAdr", some "h2", some "h3", some "h4", some "h5",
    some "h6", some "h7", some "mV"],
   [some "1", some "1", some "0", some "0", some "0", some "0", some "0",
    some "0", some "2"],
   [some "2", some "2", some "0", some "0", some "0", some "0", some "0",
    some "0", some "4"]]

/-- exRawTable with textual group and item labels, so the two reads agree
on every test column's dtype. -/
def exRawTableOk : RawTable :=
  [[some "a0", some "a1", some "a2", some "a3", some "a4", some "a5",
    some "a6", some "a7", some "G1"],
   [some "b0", some "b1", some "b2", some "b3", some "b4", some "b5",
    some "b6", some "b7", some "V"],
   [some "c0", some "c1", some "c2", some "c3", some "c4", some "c5",
    some "c6", some "c7", some "3"],
   [some "d0", some "d1", some "d2", some "d3", some "d4", some "d5",
    some "d6", some "d7", some "1"],
   [some "XAdr", some "YAdr", some "h2", some "h3", some "h4", some "h5",
    some "h6", some "h7", some "mV"],
   [some "1", some "1", some "0", some "0", some "0", some "0", some "0",
    some "0", some "2"],
   [some "2", some "2", some "0", some "0", some "0", some "0", some "0",
    some "0", some "4"]]

/-- Every row of the raw frame fits in its width. -/
lemma length_le_rawWidth {rt : RawTable} {r : List RawCell} (h : r ∈ rt) :
    r.length ≤ rawWidth rt := by
  induction rt with
  | nil => cases h
  | cons x xs ih =>
    have hw : rawWidth (x :: xs) = max x.length (rawWidth xs) := rfl
    rcases List.mem_cons.mp h with rfl | hmem
    · rw [hw]
      omega
    · have := ih hmem
      rw [hw]
      omega

/-- A column numeric over all rows is numeric over the first two. -/
lemma colIsNumeric_take {rt : RawTable} {j : Nat}
    (h : colIsNumeric rt j = true) : colIsNumeric (rt.take 2) j = true := by
  rw [colIsNumeric, List.all_eq_true] at h ⊢
  exact fun r hr => h r (List.mem_of_mem_take hr)

/-- Dropping k leading cells of a classified row classifies the dropped
row from position n plus k. -/
lemma readRowGo_drop (s : RawTable) (row : List RawCell) (n k : Nat) :
    (readRowGo s n row).drop k = readRowGo s (n + k) (row.drop k) := by
  induction row generalizing n k with
  | nil => simp [readRowGo]
  | cons c rest ih =>
    cases k with
    | zero => rfl
    | succ k =>
      show (readRowGo s (n + 1) rest).drop k = _
      rw [ih (n + 1) k]
      have : n + 1 + k = n + (k + 1) := by omega
      rw [this]
      rfl

/-- When every position of the row is either object-classified already by
the two sampled rows or missing, the 2-row read and the full read classify
the row identically. -/
lemma readRowGo_agree (rt : RawTable) (row : List RawCell) (n : Nat)
    (hpos : ∀ k, k < row.length →
      colIsNumeric (rt.take 2) (n + k) = false ∨ row.getD k none = none) :
    readRowGo (rt.take 2) n row = readRowGo rt n row := by
  induction row generalizing n with
  | nil => rfl
  | cons c rest ih =>
    rw [readRowGo, readRowGo]
    congr 1
    · rcases hpos 0 (by simp) with hobj0 | hmiss
      · rw [Nat.add_zero] at hobj0
        have hfull : colIsNumeric rt n = false := by
          cases hfn : colIsNumeric rt n
          · rfl
          · exact absurd (colIsNumeric_take hfn) (by simp [hobj0])
        rw [hobj0, hfull]
      · have hc : c = none := by simpa using hmiss
        rw [hc]
        rfl
    · apply ih
      intro k hk
      rcases hpos (k + 1) (by simpa using hk) with h | h
      · left
        rwa [show n + (k + 1) = n + 1 + k by omega] at h
      · right
        simpa using h

/-- Row i of a classified frame is the classified row i of the raw frame. -/
lemma readTable_getD (s rt : RawTable) (i : Nat) :
    (readTable s rt).getD i [] = readRowGo s 0 (rt.getD i []) := by
  by_cases h : i < rt.length
  · rw [readTable, List.getD_eq_getElem _ _ (by simpa using h),
      List.getElem_map, List.getD_eq_getElem _ _ h]
  · rw [List.getD_eq_default _ _ (by simpa [readTable] using Nat.le_of_not_lt h),
      List.getD_eq_default _ _ (Nat.le_of_not_lt h)]
    rfl

/-- The first two raw rows are unchanged by the nrows-2 truncation. -/
lemma take2_getD (rt : RawTable) (i : Nat) (hi : i < 2) :
    (rt.take 2).getD i [] = rt.getD i [] := by
  by_cases h : i < rt.length
  · have h2 : i < (rt.take 2).length := by
      simp [List.length_take]
      omega
    rw [List.getD_eq_getElem _ _ h2, List.getD_eq_getElem _ _ h]
    exact List.getElem_take rt
  · rw [List.getD_eq_default _ _ (by simp [List.length_take]; omega),
      List.getD_eq_default _ _ (Nat.le_of_not_lt h)]

/-- The getD of a dropped list reads the original at the shifted index. -/
lemma getD_drop (l : List RawCell) (k j : Nat) :
    (l.drop k).getD j none = l.getD (k + j) none := by
  by_cases h : k + j < l.length
  · have h2 : j < (l.drop k).length := by
      simp [List.length_drop]
      omega
    rw [List.getD_eq_getElem _ _ h2, List.getD_eq_getElem _ _ h]
    simp [List.getElem_drop]
  · rw [List.getD_eq_default _ _ (by simp [List.length_drop]; omega),
      List.getD_eq_default _ _ (Nat.le_of_not_lt h)]

/-- Claim C9 (refuting the claim as stated): a table with no entirely
empty row or column on which the names from the 2-row re-read differ from
the names the full parse computes: the numeric-looking group label 007 is
converted (and rendered 7) by the 2-row read, while the full read keeps
007 because the unit row below breaks the conversion. -/
theorem claim_C9_counterexample :
    Rect (readFull exRawTable) ∧
    (∀ r ∈ readFull exRawTable, rowAllEmpty r = false) ∧
    (∀ j, j < ncols (readFull exRawTable) →
      colAllEmpty (readFull exRawTable) j = false) ∧
    get_test_items_file exRawTable = ["7-1"] ∧
    (mkParseCtx (prepTable (readFull exRawTable))).items = ["007-1"] ∧
    get_test_items_file exRawTable ≠
      (mkParseCtx (prepTable (readFull exRawTable))).items := by
  decide

/-- Claim C9 as amended: the agreement additionally needs every test
column's dtype to be settled already by the two header rows; it holds when
each test column either carries some non-numeric token in rows 0 or 1 (so
both reads classify it as object) or has both those cells missing (both
reads render nan).  Then, on a rectangular raw table whose full read has
no entirely-empty row or column, the names of the 2-row re-read equal the
names computed inside parse_wafer_csv. -/
theorem claim_C9_amended (rt : RawTable)
    (hobj : ∀ j, j < rawWidth rt → 8 ≤ j →
      colIsNumeric (rt.take 2) j = false ∨
      ((rt.getD 0 []).getD j none = none ∧ (rt.getD 1 []).getD j none = none))
    (hrect : Rect (readFull rt))
    (hrows : ∀ r ∈ readFull rt, rowAllEmpty r = false)
    (hcols : ∀ j, j < ncols (readFull rt) →
      colAllEmpty (readFull rt) j = false) :
    get_test_items_file rt = (mkParseCtx (prepTable (readFull rt))).items := by
  rw [get_test_items_file, ← tableTestItems_agree (readFull rt) hrect hrows hcols]
  have hrow : ∀ i, i < 2 →
      ((readHead2 rt).getD i []).drop 8 = ((readFull rt).getD i []).drop 8 := by
    intro i hi
    rw [readHead2, readFull, readTable_getD, readTable_getD, take2_getD rt i hi,
      readRowGo_drop, readRowGo_drop, Nat.zero_add]
    apply readRowGo_agree
    intro k hk
    have hkw : 8 + k < rawWidth rt := by
      have hlen : (rt.getD i []).length ≤ rawWidth rt := by
        by_cases h : i < rt.length
        · exact length_le_rawWidth
            (List.getD_eq_getElem _ _ h ▸ List.getElem_mem h)
        · rw [List.getD_eq_default _ _ (Nat.le_of_not_lt h)]
          exact Nat.zero_le _
      have hk' : k < (rt.getD i []).length - 8 := by
        simpa [List.length_drop] using hk
      omega
    rcases hobj (8 + k) hkw (by omega) with h | h
    · exact Or.inl h
    · right
      rw [getD_drop]
      match i, hi with
      | 0, _ => exact h.1
      | 1, _ => exact h.2
  rw [get_test_items, get_test_items, hrow 0 (by omega), hrow 1 (by omega)]

/-- Witness for the amended claim C9 at a raw table with textual group and
item labels. -/
theorem claim_C9_amended_witness :
    (∀ j, j < rawWidth exRawTableOk → 8 ≤ j →
      colIsNumeric (exRawTableOk.take 2) j = false ∨
      ((exRawTableOk.getD 0 []).getD j none = none ∧
        (exRawTableOk.getD 1 []).getD j none = none)) ∧
    Rect (readFull exRawTableOk) ∧
    (∀ r ∈ readFull exRawTableOk, rowAllEmpty r = false) ∧
    (∀ j, j < ncols (readFull exRawTableOk) →
      colAllEmpty (readFull exRawTableOk) j = false) ∧
    get_test_items_file exRawTableOk =
      (mkParseCtx (prepTable (readFull exRawTableOk))).items :=
  ⟨by decide, by decide, by decide, by decide,
    claim_C9_amended exRawTableOk (by decide) (by decide) (by decide)
      (by decide)⟩

end ExtractFailingChips
